import Mathlib

/-
Verification of the relay-tunnel core of options-buddy-react.

Shallow embedding of:
  - backend/websocket_relay.py   (RelayManager: connect, disconnect,
    is_connected, get_connection_status, send_request, handle_message)
  - relay-agent/relay_agent.py   (IBKRRelayAgent: handle_request,
    _execute_action, message_loop)

Modelling conventions:
  - Python dicts keyed by strings become association lists
    (List (String × _)) with first-occurrence lookup, replace-or-append
    update, and filter-based removal; a Python dict never holds a
    duplicate key, and all three operations agree with dict semantics
    on duplicate-free lists.
  - asyncio futures become an explicit FutureState (pending, resolved
    with the response message, or cancelled).  future.done() is
    "not pending"; future.cancel() on a pending future yields cancelled.
  - Wall-clock instants (datetime.utcnow) become an abstract Nat tick
    supplied at each event.
  - The environment of a single send_request invocation (what the wire
    and the event loop do while the caller is suspended) is summarised
    by a SendOutcome value: the send itself raised, or the awaited
    future was resolved with a message, was cancelled, or the deadline
    elapsed first.
  - Numeric payload fields (prices, greeks) are modelled as Int; no
    claim depends on real arithmetic.  The ib_insync SDK (the external
    capability provider) is an oracle record of functions returning
    Except String _, where an error value models a raised exception.
-/

set_option autoImplicit false

namespace RelaySpec

/-! ### Association lists (Python dict semantics) -/

/-- First-occurrence lookup, the meaning of d[k] / k in d. -/
def alookup {α : Type} : List (String × α) → String → Option α
  | [], _ => none
  | (k0, v) :: rest, k => if k0 = k then some v else alookup rest k

/-- Replace the first binding of k, or append one: the meaning of d[k] = v. -/
def aset {α : Type} : List (String × α) → String → α → List (String × α)
  | [], k, v => [(k, v)]
  | (k0, v0) :: rest, k, v =>
      if k0 = k then (k, v) :: rest else (k0, v0) :: aset rest k v

/-- Remove every binding of k: the meaning of d.pop(k, None) on a dict. -/
def aremove {α : Type} : List (String × α) → String → List (String × α)
  | [], _ => []
  | (k0, v0) :: rest, k =>
      if k0 = k then aremove rest k else (k0, v0) :: aremove rest k

theorem alookup_aset_self {α : Type} (l : List (String × α)) (k : String) (v : α) :
    alookup (aset l k v) k = some v := by
  induction l with
  | nil => simp [aset, alookup]
  | cons hd tl ih =>
      obtain ⟨k0, v0⟩ := hd
      by_cases h : k0 = k <;> simp [aset, alookup, h, ih]

theorem alookup_aset_other {α : Type} (l : List (String × α)) (k k2 : String) (v : α)
    (hne : k2 ≠ k) : alookup (aset l k v) k2 = alookup l k2 := by
  induction l with
  | nil => simp [aset, alookup, hne.symm]
  | cons hd tl ih =>
      obtain ⟨k0, v0⟩ := hd
      by_cases h : k0 = k
      · subst h
        simp [aset, alookup, hne.symm]
      · simp only [aset, if_neg h, alookup]
        by_cases h2 : k0 = k2 <;> simp [h2, ih]

theorem alookup_aremove_self {α : Type} (l : List (String × α)) (k : String) :
    alookup (aremove l k) k = none := by
  induction l with
  | nil => rfl
  | cons hd tl ih =>
      obtain ⟨k0, v0⟩ := hd
      by_cases h : k0 = k <;> simp [aremove, alookup, h, ih]

theorem alookup_aremove_other {α : Type} (l : List (String × α)) (k k2 : String)
    (hne : k2 ≠ k) : alookup (aremove l k) k2 = alookup l k2 := by
  induction l with
  | nil => rfl
  | cons hd tl ih =>
      obtain ⟨k0, v0⟩ := hd
      by_cases h : k0 = k
      · subst h
        simp [aremove, alookup, hne.symm, ih]
      · simp only [aremove, if_neg h, alookup]
        by_cases h2 : k0 = k2 <;> simp [h2, ih]

/-! ### Wire payloads produced by the agent (relay_agent._execute_action) -/

/-- One element of the "positions" list (relay_agent.py, get_positions). -/
structure PositionData where
  account : String
  symbol : String
  secType : String
  position : Int
  avgCost : Int
  conId : Int
  strike : Option Int
  right : Option String
  expiry : Option String
deriving DecidableEq

/-- One element of the "portfolio" list (relay_agent.py, get_portfolio). -/
structure PortfolioData where
  account : String
  symbol : String
  secType : String
  position : Int
  marketPrice : Int
  marketValue : Int
  averageCost : Int
  unrealizedPNL : Int
  realizedPNL : Int
  conId : Int
deriving DecidableEq

/-- Quote fields returned by get_option_data.  A none field models the
NaN-to-None conversion the agent applies to unavailable ticker fields. -/
structure OptionQuote where
  bid : Option Int := none
  ask : Option Int := none
  last : Option Int := none
  volume : Int := 0
  delta : Option Int := none
  gamma : Option Int := none
  theta : Option Int := none
  vega : Option Int := none
  iv : Option Int := none
deriving DecidableEq

/-- One per-strike element of the "calls" or "puts" list built by
get_option_chain. -/
structure ChainEntry where
  strike : Int
  bid : Option Int
  ask : Option Int
  last : Option Int
  volume : Int
  delta : Option Int
  iv : Option Int
deriving DecidableEq

/-- The chain_data dict of get_option_chain. -/
structure ChainData where
  calls : List ChainEntry := []
  puts : List ChainEntry := []
deriving DecidableEq

/-- The success payload of a response frame, one constructor per action
result shape; emptyDict is the default {} used by send_request when the
"data" key is absent. -/
inductive ActionData where
  | emptyDict
  | accounts (xs : List String)
  | positions (xs : List PositionData)
  | portfolio (xs : List PortfolioData)
  | price (p : Option Int)
  | expirations (xs : List String)
  | strikes (xs : List Int)
  | optionData (q : OptionQuote)
  | chain (c : ChainData)
deriving DecidableEq

/-- A wire frame as read by RelayManager.handle_message and produced by
the agent: each field is the value of the homonymous JSON key, none
meaning the key is absent. -/
structure Msg where
  type : Option String := none
  id : Option String := none
  error : Option String := none
  data : Option ActionData := none
  ibkr_connected : Option Bool := none
  account : Option String := none
deriving DecidableEq

/-! ### Relay-side state (backend/websocket_relay.py) -/

/-- State of one asyncio.Future held in pending_requests. -/
inductive FutureState where
  | pending
  | resolved (m : Msg)
  | cancelled
deriving DecidableEq

/-- RelayConnection dataclass.  ws_open models
websocket.client_state == WebSocketState.CONNECTED. -/
structure RelayConnection where
  user_id : String
  ws_open : Bool
  connected_at : Nat
  last_heartbeat : Nat
  ibkr_connected : Bool := false
  ibkr_account : Option String := none
  pending_requests : List (String × FutureState) := []
deriving DecidableEq

/-- RelayManager state: the _connections dict. -/
structure RelayState where
  connections : List (String × RelayConnection)
deriving DecidableEq

/-- A fresh RelayConnection as built by RelayManager.connect (field
defaults connected_at = last_heartbeat = utcnow, ibkr flags reset,
empty pending table). -/
def freshConn (uid : String) (now : Nat) : RelayConnection :=
  { user_id := uid, ws_open := true, connected_at := now, last_heartbeat := now,
    ibkr_connected := false, ibkr_account := none, pending_requests := [] }

/-- RelayManager.connect: close any prior websocket for the identity and
install a fresh connection.  Returns the new state together with the
superseded connection object (its websocket closed, everything else as
it was) so the fate of its pending futures can be observed; the code
never touches them. -/
def connect (st : RelayState) (uid : String) (now : Nat) :
    RelayState × Option RelayConnection :=
  ({ st with connections := aset st.connections uid (freshConn uid now) },
   (alookup st.connections uid).map (fun c => { c with ws_open := false }))

/-- future.cancel() on each pending request: a pending future becomes
cancelled, a done future is left alone. -/
def cancelStep : FutureState → FutureState
  | .pending => .cancelled
  | f => f

/-- RelayManager.disconnect: pop the connection and cancel its not-done
futures.  Returns the popped connection with its futures cancelled. -/
def disconnect (st : RelayState) (uid : String) :
    RelayState × Option RelayConnection :=
  match alookup st.connections uid with
  | none => (st, none)
  | some c =>
      ({ st with connections := aremove st.connections uid },
       some { c with
         pending_requests := c.pending_requests.map (fun kf => (kf.1, cancelStep kf.2)) })

/-- RelayManager.is_connected. -/
def is_connected (st : RelayState) (uid : String) : Bool :=
  match alookup st.connections uid with
  | none => false
  | some c => c.ws_open

/-- The dict returned by RelayManager.get_connection_status; an Option
field that is none models the corresponding key being absent from the
returned dict. -/
structure ConnStatus where
  connected : Bool
  ibkr_connected : Bool
  account : Option String
  connected_at : Option Nat
  last_heartbeat : Option Nat
deriving DecidableEq

/-- RelayManager.get_connection_status. -/
def get_connection_status (st : RelayState) (uid : String) : ConnStatus :=
  match alookup st.connections uid with
  | none =>
      { connected := false, ibkr_connected := false, account := none,
        connected_at := none, last_heartbeat := none }
  | some c =>
      { connected := c.ws_open, ibkr_connected := c.ibkr_connected,
        account := c.ibkr_account, connected_at := some c.connected_at,
        last_heartbeat := some c.last_heartbeat }

/-! ### RelayManager.send_request -/

/-- What happened while the caller of send_request was suspended: the
websocket send raised, or the awaited future was resolved with a
message, was cancelled, or the deadline elapsed first. -/
inductive WaitOutcome where
  | responded (m : Msg)
  | timedOut
  | cancelled
deriving DecidableEq

inductive SendOutcome where
  | sendOk (w : WaitOutcome)
  | sendFailed
deriving DecidableEq

/-- How send_request returns to its caller: a normal return with the
"data" payload, or one of the raised exceptions (ConnectionError,
TimeoutError carrying the action name, RuntimeError carrying the remote
error string, asyncio.CancelledError, or the re-raised send failure). -/
inductive CallResult where
  | success (d : ActionData)
  | notConnected
  | timeout (action : String)
  | remoteError (e : String)
  | cancelledErr
  | sendErr
deriving DecidableEq

/-- Python truthiness of response.get("error") under the typed frame
model: the key is present and the string nonempty. -/
def truthy : Option String → Bool
  | some s => s ≠ ""
  | none => false

/-- The finally block of send_request: conn.pending_requests.pop(request_id, None). -/
def popPending (st : RelayState) (uid rid : String) : RelayState :=
  match alookup st.connections uid with
  | none => st
  | some c =>
      let c2 := { c with pending_requests := aremove c.pending_requests rid }
      { st with connections := aset st.connections uid c2 }

/-- RelayManager.send_request, one invocation.  rid stands for the
freshly generated uuid4 string; out summarises the environment during
the suspension.  Returns the value surfaced to the caller and the relay
state after the invocation (including the finally-block cleanup). -/
def send_request (st : RelayState) (uid rid action : String) (out : SendOutcome) :
    CallResult × RelayState :=
  match alookup st.connections uid with
  | none => (.notConnected, st)
  | some c =>
      if c.ws_open then
        let c2 := { c with pending_requests := aset c.pending_requests rid .pending }
        let st1 : RelayState := { st with connections := aset st.connections uid c2 }
        match out with
        | .sendFailed => (.sendErr, popPending st1 uid rid)
        | .sendOk .timedOut => (.timeout action, popPending st1 uid rid)
        | .sendOk .cancelled => (.cancelledErr, popPending st1 uid rid)
        | .sendOk (.responded m) =>
            if truthy m.error then
              (.remoteError (m.error.getD ""), popPending st1 uid rid)
            else
              (.success (m.data.getD .emptyDict), popPending st1 uid rid)
      else (.notConnected, st)

/-! ### RelayManager.handle_message -/

/-- future.set_result(message) guarded by not future.done(). -/
def resolveStep (m : Msg) : FutureState → FutureState
  | .pending => .resolved m
  | f => f

/-- Resolve the entry with key rid, if any, in the pending table. -/
def resolveFut : List (String × FutureState) → String → Msg → List (String × FutureState)
  | [], _, _ => []
  | (k0, f) :: rest, rid, m =>
      if k0 = rid then (k0, resolveStep m f) :: rest
      else (k0, f) :: resolveFut rest rid m

/-- Effect of one inbound frame on the connection object: heartbeat
bump on every frame, response routing by id (skipped when the id key is
absent, falsy, or unknown), status field update on status frames. -/
def hmConn (c : RelayConnection) (now : Nat) (m : Msg) : RelayConnection :=
  let c1 := { c with last_heartbeat := now }
  let mtype := m.type.getD "response"
  if mtype = "response" then
    match m.id with
    | some rid =>
        if rid = "" then c1
        else { c1 with pending_requests := resolveFut c1.pending_requests rid m }
    | none => c1
  else if mtype = "status" then
    { c1 with ibkr_connected := m.ibkr_connected.getD false,
              ibkr_account := m.account }
  else c1

/-- RelayManager.handle_message. -/
def handle_message (st : RelayState) (uid : String) (now : Nat) (m : Msg) : RelayState :=
  match alookup st.connections uid with
  | none => st
  | some c => { st with connections := aset st.connections uid (hmConn c now m) }

/-- Deliver a sequence of timestamped frames for one identity, in
order, through handle_message. -/
def deliverTimed : RelayState → String → List (Nat × Msg) → RelayState
  | st, _, [] => st
  | st, uid, tm :: rest => deliverTimed (handle_message st uid tm.1 tm.2) uid rest

/-- The future registered under correlation id k for identity uid, if
any. -/
def pendingLookup (st : RelayState) (uid k : String) : Option FutureState :=
  (alookup st.connections uid).bind (fun c => alookup c.pending_requests k)

/-! ### Agent side (relay-agent/relay_agent.py) -/

/-- The params dict of a call frame, with the keys the agent reads;
an outer none models an absent key.  The strikes key is doubly
optional because the backend proxy (IBKRProxyService.get_option_chain)
sends it with JSON null by default, and params.get with a default
distinguishes present-with-null (returns None) from absent (returns
the default): some none is the key present with null, some (some xs)
the key present with a list.  Every repository-side caller sends the
other keys either absent or with a non-null value, so a single Option
suffices for them. -/
structure ReqParams where
  account : Option String := none
  symbol : Option String := none
  expiry : Option String := none
  strike : Option Int := none
  option_type : Option String := none
  strikes : Option (Option (List Int)) := none
deriving DecidableEq

/-- A call frame as parsed by IBKRRelayAgent.handle_request. -/
structure AgentRequest where
  id : Option String := none
  action : Option String := none
  params : ReqParams := {}
deriving DecidableEq

/-- The external capability provider (ib_insync), as an oracle: one
function per SDK interaction the agent performs, an error value
modelling a raised exception.  The SDK-object-to-dict projections the
agent applies are absorbed into the oracle results. -/
structure IBOracle where
  connected : Bool
  accounts : List String
  positions : Option String → Except String (List PositionData)
  portfolio : Option String → Except String (List PortfolioData)
  price : String → Except String (Option Int)
  expirations : String → Except String (List String)
  strikes_of : String → String → Except String (List Int)
  option_quote : String → String → Int → String → Except String OptionQuote

/-- Projection of one quote onto the chain-entry fields. -/
def toChainEntry (strike : Int) (q : OptionQuote) : ChainEntry :=
  { strike := strike, bid := q.bid, ask := q.ask, last := q.last,
    volume := q.volume, delta := q.delta, iv := q.iv }

/-- Body of the per-strike loop of get_option_chain: quote the call and
the put side, appending each successful quote and skipping (logging) a
failure without failing the action. -/
def chainStep (quote : Int → String → Except String OptionQuote)
    (acc : ChainData) (strike : Int) : ChainData :=
  let acc1 :=
    match quote strike "C" with
    | .ok q => { acc with calls := acc.calls ++ [toChainEntry strike q] }
    | .error _ => acc
  match quote strike "P" with
  | .ok q => { acc1 with puts := acc1.puts ++ [toChainEntry strike q] }
  | .error _ => acc1

/-- The get_option_chain loop: at most the first 20 requested strikes. -/
def build_option_chain (quote : Int → String → Except String OptionQuote)
    (strikes : List Int) : ChainData :=
  (strikes.take 20).foldl (chainStep quote) {}

/-- Message of the TypeError raised by slicing None in the
get_option_chain branch (text abbreviated: the Python message quotes
the type name). -/
def strikesNullMsg : String := "TypeError: NoneType object is not subscriptable"

/-- The action names recognised by the dispatch chain of _execute_action. -/
def recognizedActions : List String :=
  ["get_accounts", "get_positions", "get_portfolio", "get_price",
   "get_option_expirations", "get_option_strikes", "get_option_data",
   "get_option_chain"]

/-- IBKRRelayAgent._execute_action: the if/elif dispatch chain over the
action name; an unknown action raises ValueError, modelled by the error
value. -/
def execute_action (ib : IBOracle) (action : String) (params : ReqParams) :
    Except String ActionData :=
  if action = "get_accounts" then
    .ok (.accounts ib.accounts)
  else if action = "get_positions" then
    match ib.positions params.account with
    | .ok xs => .ok (.positions xs)
    | .error e => .error e
  else if action = "get_portfolio" then
    match ib.portfolio params.account with
    | .ok xs => .ok (.portfolio xs)
    | .error e => .error e
  else if action = "get_price" then
    match ib.price ((params.symbol.getD "").toUpper) with
    | .ok p => .ok (.price p)
    | .error e => .error e
  else if action = "get_option_expirations" then
    match ib.expirations ((params.symbol.getD "").toUpper) with
    | .ok xs => .ok (.expirations xs)
    | .error e => .error e
  else if action = "get_option_strikes" then
    match ib.strikes_of ((params.symbol.getD "").toUpper) (params.expiry.getD "") with
    | .ok xs => .ok (.strikes xs)
    | .error e => .error e
  else if action = "get_option_data" then
    let ot := (params.option_type.getD "C").toUpper
    let right := if ot = "C" ∨ ot = "CALL" then "C" else "P"
    match ib.option_quote ((params.symbol.getD "").toUpper) (params.expiry.getD "")
        (params.strike.getD 0) right with
    | .ok q => .ok (.optionData q)
    | .error e => .error e
  else if action = "get_option_chain" then
    match params.strikes.getD (some []) with
    | none => .error strikesNullMsg
    | some xs =>
        .ok (.chain (build_option_chain
          (fun s r => ib.option_quote ((params.symbol.getD "").toUpper)
            (params.expiry.getD "") s r)
          xs))
  else
    .error ("Unknown action: " ++ action)

/-- A response frame carrying an error description. -/
def error_response (rid e : String) : Msg :=
  { type := some "response", id := some rid, error := some e }

/-- A response frame carrying a success payload. -/
def data_response (rid : String) (d : ActionData) : Msg :=
  { type := some "response", id := some rid, data := some d }

/-- IBKRRelayAgent.handle_request: id and action defaults, the
IB-Gateway connectivity guard, dispatch, and the catch-all that turns
any exception into an error response frame. -/
def handle_request (ib : IBOracle) (req : AgentRequest) : Msg :=
  let rid := req.id.getD "unknown"
  let action := req.action.getD ""
  if ib.connected = false then
    error_response rid "IB Gateway not connected"
  else
    match execute_action ib action req.params with
    | .ok d => data_response rid d
    | .error e => error_response rid e

/-- IBKRRelayAgent.message_loop, functional view: each inbound text is
either an unparseable frame (none — logged and skipped) or a parsed
request; every parsed request is handled to completion and its response
sent before the next frame is read. -/
def message_loop (ib : IBOracle) : List (Option AgentRequest) → List Msg
  | [] => []
  | none :: rest => message_loop ib rest
  | some r :: rest => handle_request ib r :: message_loop ib rest

/-- IBKRRelayAgent.message_loop, timed view: dur gives the time
handle_request takes for a request (the capability-provider latency);
each response is paired with the instant it is sent.  The loop awaits
each handle_request inline, so the clock of a later frame starts where
the previous handling finished. -/
def message_loop_timed (ib : IBOracle) (dur : AgentRequest → Nat) :
    Nat → List (Option AgentRequest) → List (Msg × Nat)
  | _, [] => []
  | t, none :: rest => message_loop_timed ib dur t rest
  | t, some r :: rest =>
      (handle_request ib r, t + dur r) :: message_loop_timed ib dur (t + dur r) rest

/-! ### Helper lemmas about handle_message -/

theorem alookup_resolveFut_self (l : List (String × FutureState)) (rid : String) (m : Msg) :
    alookup (resolveFut l rid m) rid = (alookup l rid).map (resolveStep m) := by
  induction l with
  | nil => rfl
  | cons hd tl ih =>
      obtain ⟨k0, f⟩ := hd
      by_cases h : k0 = rid <;> simp [resolveFut, alookup, h, ih]

theorem alookup_resolveFut_other (l : List (String × FutureState)) (rid k : String)
    (m : Msg) (hne : k ≠ rid) :
    alookup (resolveFut l rid m) k = alookup l k := by
  induction l with
  | nil => rfl
  | cons hd tl ih =>
      obtain ⟨k0, f⟩ := hd
      by_cases h : k0 = rid
      · subst h
        simp [resolveFut, alookup, hne.symm]
      · simp only [resolveFut, if_neg h, alookup]
        by_cases h2 : k0 = k <;> simp [h2, ih]

/-- Whether a frame is routed to correlation id k by handle_message. -/
def routes (m : Msg) (k : String) : Prop :=
  m.type.getD "response" = "response" ∧ m.id = some k ∧ k ≠ ""

instance (m : Msg) (k : String) : Decidable (routes m k) := by
  unfold routes; infer_instance

theorem hmConn_pending_routes (c : RelayConnection) (t : Nat) (m : Msg) (k : String)
    (h : routes m k) :
    alookup (hmConn c t m).pending_requests k
      = (alookup c.pending_requests k).map (resolveStep m) := by
  obtain ⟨h1, h2, h3⟩ := h
  simp [hmConn, h1, h2, h3, alookup_resolveFut_self]

theorem hmConn_pending_not_routes (c : RelayConnection) (t : Nat) (m : Msg) (k : String)
    (h : ¬ routes m k) :
    alookup (hmConn c t m).pending_requests k = alookup c.pending_requests k := by
  by_cases h1 : m.type.getD "response" = "response"
  · cases hid : m.id with
    | none => simp [hmConn, h1, hid]
    | some rid =>
        by_cases hr : rid = ""
        · simp [hmConn, h1, hid, hr]
        · have hkr : k ≠ rid := by
            intro hk
            exact h ⟨h1, by simpa [hk] using hid, by simpa [hk] using hr⟩
          simp [hmConn, h1, hid, hr, alookup_resolveFut_other _ _ _ _ hkr]
  · by_cases h2 : m.type.getD "response" = "status" <;> simp [hmConn, h1, h2]

theorem hmConn_ws_open (c : RelayConnection) (t : Nat) (m : Msg) :
    (hmConn c t m).ws_open = c.ws_open := by
  by_cases h1 : m.type.getD "response" = "response"
  · cases hid : m.id with
    | none => simp [hmConn, h1, hid]
    | some rid => by_cases hr : rid = "" <;> simp [hmConn, h1, hid, hr]
  · by_cases h2 : m.type.getD "response" = "status" <;> simp [hmConn, h1, h2]

theorem hmConn_connected_at (c : RelayConnection) (t : Nat) (m : Msg) :
    (hmConn c t m).connected_at = c.connected_at := by
  by_cases h1 : m.type.getD "response" = "response"
  · cases hid : m.id with
    | none => simp [hmConn, h1, hid]
    | some rid => by_cases hr : rid = "" <;> simp [hmConn, h1, hid, hr]
  · by_cases h2 : m.type.getD "response" = "status" <;> simp [hmConn, h1, h2]

theorem handle_message_lookup_self (st : RelayState) (uid : String) (t : Nat) (m : Msg)
    (c : RelayConnection) (hc : alookup st.connections uid = some c) :
    alookup (handle_message st uid t m).connections uid = some (hmConn c t m) := by
  simp [handle_message, hc, alookup_aset_self]

theorem handle_message_lookup_other (st : RelayState) (uid uid2 : String) (t : Nat)
    (m : Msg) (hne : uid2 ≠ uid) :
    alookup (handle_message st uid t m).connections uid2 = alookup st.connections uid2 := by
  unfold handle_message
  cases hc : alookup st.connections uid with
  | none => rfl
  | some c => simp [alookup_aset_other _ _ _ _ hne]

/-- Once an entry is resolved, later frames leave it resolved with the
same message: the done check makes delivery per id at most once. -/
theorem hmConn_preserves_resolved (c : RelayConnection) (t : Nat) (f m : Msg) (k : String)
    (h : alookup c.pending_requests k = some (.resolved m)) :
    alookup (hmConn c t f).pending_requests k = some (.resolved m) := by
  by_cases hr : routes f k
  · rw [hmConn_pending_routes c t f k hr, h]
    rfl
  · rw [hmConn_pending_not_routes c t f k hr, h]

theorem deliver_preserves_resolved (uid k : String) (m : Msg) :
    ∀ (frames : List (Nat × Msg)) (st : RelayState),
      pendingLookup st uid k = some (.resolved m) →
      pendingLookup (deliverTimed st uid frames) uid k = some (.resolved m) := by
  intro frames
  induction frames with
  | nil => intro st h; exact h
  | cons tm rest ih =>
      intro st h
      obtain ⟨c, hc, hk⟩ : ∃ c, alookup st.connections uid = some c ∧
          alookup c.pending_requests k = some (.resolved m) := by
        unfold pendingLookup at h
        cases hc : alookup st.connections uid with
        | none => rw [hc] at h; exact absurd h (by simp)
        | some c => exact ⟨c, rfl, by rw [hc] at h; exact h⟩
      show pendingLookup (deliverTimed (handle_message st uid tm.1 tm.2) uid rest) uid k
        = some (.resolved m)
      apply ih
      unfold pendingLookup
      rw [handle_message_lookup_self st uid tm.1 tm.2 c hc]
      simpa using hmConn_preserves_resolved c tm.1 tm.2 m k hk

/-- Delivering any frame list containing the unique frame addressed to
a pending entry k resolves that entry with exactly that frame. -/
theorem deliver_resolves (uid k : String) (m : Msg)
    (hm : routes m k) :
    ∀ (frames : List (Nat × Msg)) (st : RelayState),
      pendingLookup st uid k = some .pending →
      (∃ t0, (t0, m) ∈ frames) →
      (∀ t2 m2, (t2, m2) ∈ frames → routes m2 k → m2 = m) →
      pendingLookup (deliverTimed st uid frames) uid k = some (.resolved m) := by
  intro frames
  induction frames with
  | nil => intro st _ hmem _; simp at hmem
  | cons tm rest ih =>
      intro st hpend hmem huniq
      obtain ⟨c, hc, hk⟩ : ∃ c, alookup st.connections uid = some c ∧
          alookup c.pending_requests k = some .pending := by
        unfold pendingLookup at hpend
        cases hc : alookup st.connections uid with
        | none => rw [hc] at hpend; exact absurd hpend (by simp)
        | some c => exact ⟨c, rfl, by rw [hc] at hpend; exact hpend⟩
      show pendingLookup (deliverTimed (handle_message st uid tm.1 tm.2) uid rest) uid k
        = some (.resolved m)
      by_cases hf : tm.2 = m
      · apply deliver_preserves_resolved
        unfold pendingLookup
        rw [handle_message_lookup_self st uid tm.1 tm.2 c hc]
        show alookup (hmConn c tm.1 tm.2).pending_requests k = some (.resolved m)
        rw [hmConn_pending_routes c tm.1 tm.2 k (by rw [hf]; exact hm), hk, hf]
        rfl
      · have hnr : ¬ routes tm.2 k := by
          intro hr
          exact hf (huniq tm.1 tm.2 (by simp) hr)
        apply ih
        · unfold pendingLookup
          rw [handle_message_lookup_self st uid tm.1 tm.2 c hc]
          show alookup (hmConn c tm.1 tm.2).pending_requests k = some .pending
          rw [hmConn_pending_not_routes c tm.1 tm.2 k hnr, hk]
        · obtain ⟨t0, ht0⟩ := hmem
          rcases List.mem_cons.mp ht0 with heq | hmem2
          · exact absurd (congrArg Prod.snd heq.symm) hf
          · exact ⟨t0, hmem2⟩
        · intro t2 m2 hm2 hr2
          exact huniq t2 m2 (List.mem_cons_of_mem _ hm2) hr2

/-! ### Status tracking -/

/-- The observable status triple of a connection: capability flag,
context label, last-heartbeat instant. -/
structure StatusView where
  ibkr : Bool
  account : Option String
  hb : Nat
deriving DecidableEq

def svOf (c : RelayConnection) : StatusView :=
  { ibkr := c.ibkr_connected, account := c.ibkr_account, hb := c.last_heartbeat }

/-- Reference semantics of one inbound frame on the status triple: a
status frame installs its carried fields, every frame of any type bumps
the heartbeat instant. -/
def statusStep (v : StatusView) (tm : Nat × Msg) : StatusView :=
  if tm.2.type.getD "response" = "status" then
    { ibkr := tm.2.ibkr_connected.getD false, account := tm.2.account, hb := tm.1 }
  else
    { ibkr := v.ibkr, account := v.account, hb := tm.1 }

theorem hmConn_statusview (c : RelayConnection) (t : Nat) (m : Msg) :
    svOf (hmConn c t m) = statusStep (svOf c) (t, m) := by
  by_cases h1 : m.type.getD "response" = "response"
  · have h2 : ¬ m.type.getD "response" = "status" := by rw [h1]; decide
    cases hid : m.id with
    | none => simp [hmConn, svOf, statusStep, h1, h2, hid]
    | some rid =>
        by_cases hr : rid = "" <;> simp [hmConn, svOf, statusStep, h1, h2, hid, hr]
  · by_cases h2 : m.type.getD "response" = "status" <;>
      simp [hmConn, svOf, statusStep, h1, h2]

/-- Delivering frames keeps the connection registered, leaves transport
state and establishment time untouched, and drives the status triple by
the reference statusStep fold. -/
theorem deliver_status (uid : String) :
    ∀ (frames : List (Nat × Msg)) (st : RelayState) (c : RelayConnection),
      alookup st.connections uid = some c →
      ∃ c2, alookup (deliverTimed st uid frames).connections uid = some c2 ∧
        c2.ws_open = c.ws_open ∧ c2.connected_at = c.connected_at ∧
        svOf c2 = frames.foldl statusStep (svOf c) := by
  intro frames
  induction frames with
  | nil => intro st c hc; exact ⟨c, hc, rfl, rfl, rfl⟩
  | cons tm rest ih =>
      intro st c hc
      obtain ⟨c2, hc2, hw, hca, hsv⟩ :=
        ih (handle_message st uid tm.1 tm.2) (hmConn c tm.1 tm.2)
          (handle_message_lookup_self st uid tm.1 tm.2 c hc)
      refine ⟨c2, hc2, ?_, ?_, ?_⟩
      · rw [hw, hmConn_ws_open]
      · rw [hca, hmConn_connected_at]
      · rw [hsv, hmConn_statusview]
        rfl

/-! ### Agent-side lemmas -/

theorem build_chain_parts (quote : Int → String → Except String OptionQuote) :
    ∀ (l : List Int) (acc : ChainData),
      (l.foldl (chainStep quote) acc).calls
          = acc.calls ++ l.filterMap (fun s => match quote s "C" with
              | .ok q => some (toChainEntry s q) | .error _ => none)
      ∧ (l.foldl (chainStep quote) acc).puts
          = acc.puts ++ l.filterMap (fun s => match quote s "P" with
              | .ok q => some (toChainEntry s q) | .error _ => none) := by
  intro l
  induction l with
  | nil => intro acc; simp
  | cons s rest ih =>
      intro acc
      have h := ih (chainStep quote acc s)
      constructor
      · rw [List.foldl_cons, h.1]
        cases hC : quote s "C" <;> cases hP : quote s "P" <;>
          simp [chainStep, hC, hP, List.filterMap_cons]
      · rw [List.foldl_cons, h.2]
        cases hC : quote s "C" <;> cases hP : quote s "P" <;>
          simp [chainStep, hC, hP, List.filterMap_cons]

theorem message_loop_append (ib : IBOracle) (a b : List (Option AgentRequest)) :
    message_loop ib (a ++ b) = message_loop ib a ++ message_loop ib b := by
  induction a with
  | nil => rfl
  | cons hd tl ih => cases hd <;> simp [message_loop, ih]

/-- The timed message loop is strictly sequential: the k-th parsed
request is answered at the start instant plus the summed handling
durations of all parsed requests up to and including it. -/
theorem message_loop_timed_sequential (ib : IBOracle) (dur : AgentRequest → Nat) :
    ∀ (items : List (Option AgentRequest)) (t0 k : Nat)
      (hk : k < (items.filterMap id).length),
      (message_loop_timed ib dur t0 items).get? k
        = some (handle_request ib ((items.filterMap id).get ⟨k, hk⟩),
            t0 + ((((items.filterMap id).take (k + 1)).map dur).sum)) := by
  intro items
  induction items with
  | nil => intro t0 k hk; simp at hk
  | cons hd rest ih =>
      intro t0 k hk
      cases hd with
      | none =>
          simp only [List.filterMap_cons, id_eq] at hk ⊢
          exact ih t0 k hk
      | some r =>
          simp only [List.filterMap_cons, id_eq] at hk ⊢
          cases k with
          | zero => simp [message_loop_timed]
          | succ k =>
              have hk2 : k < (rest.filterMap id).length := by
                simpa using Nat.lt_of_succ_lt_succ hk
              have := ih (t0 + dur r) k hk2
              simp only [message_loop_timed, List.get?_cons_succ, this,
                List.take_succ_cons, List.map_cons, List.sum_cons]
              congr 2
              omega

/-! ### Further small lemmas -/

theorem alookup_mapval {α β : Type} (g : α → β) :
    ∀ (l : List (String × α)) (k : String),
      alookup (l.map (fun kf => (kf.1, g kf.2))) k = (alookup l k).map g := by
  intro l
  induction l with
  | nil => intro k; rfl
  | cons hd tl ih =>
      intro k
      obtain ⟨k0, v0⟩ := hd
      by_cases h : k0 = k <;> simp [alookup, h, ih]

theorem resolveFut_absent (l : List (String × FutureState)) (rid : String) (m : Msg)
    (h : alookup l rid = none) : resolveFut l rid m = l := by
  induction l with
  | nil => rfl
  | cons hd tl ih =>
      obtain ⟨k0, f⟩ := hd
      by_cases hk : k0 = rid
      · rw [hk] at h ⊢
        simp [alookup] at h
      · simp only [alookup, if_neg hk] at h
        simp [resolveFut, hk, ih h]

theorem hmConn_pending_absent (c : RelayConnection) (t : Nat) (m : Msg) (rid : String)
    (hm : m.type.getD "response" = "response") (hid : m.id = some rid)
    (habs : alookup c.pending_requests rid = none) :
    (hmConn c t m).pending_requests = c.pending_requests := by
  by_cases hr : rid = "" <;>
    simp [hmConn, hm, hid, hr, resolveFut_absent _ _ m habs]

theorem is_connected_elim (st : RelayState) (uid : String)
    (h : is_connected st uid = true) :
    ∃ c, alookup st.connections uid = some c ∧ c.ws_open = true := by
  unfold is_connected at h
  cases hc : alookup st.connections uid with
  | none => rw [hc] at h; exact absurd h (by simp)
  | some c => exact ⟨c, rfl, by rw [hc] at h; exact h⟩

theorem popPending_clears (st : RelayState) (uid rid : String) (c : RelayConnection)
    (hc : alookup st.connections uid = some c) :
    pendingLookup (popPending st uid rid) uid rid = none := by
  simp [popPending, hc, pendingLookup, alookup_aset_self, alookup_aremove_self]

/-- The relay state right after send_request inserts the fresh pending
entry for rid on connection c. -/
def afterInsert (st : RelayState) (uid rid : String) (c : RelayConnection) : RelayState :=
  let c2 := { c with pending_requests := aset c.pending_requests rid FutureState.pending }
  { st with connections := aset st.connections uid c2 }

/-- Reduction of send_request on a live connection: the outcome decides
the surfaced value, and every path runs the finally-block pop. -/
theorem send_request_eq (st : RelayState) (uid rid action : String) (out : SendOutcome)
    (c : RelayConnection) (hc : alookup st.connections uid = some c)
    (hw : c.ws_open = true) :
    send_request st uid rid action out =
      ((match out with
        | .sendFailed => .sendErr
        | .sendOk .timedOut => .timeout action
        | .sendOk .cancelled => .cancelledErr
        | .sendOk (.responded m) =>
            if truthy m.error then .remoteError (m.error.getD "")
            else .success (m.data.getD .emptyDict)),
       popPending (afterInsert st uid rid c) uid rid) := by
  cases out with
  | sendFailed => simp [send_request, hc, hw, afterInsert]
  | sendOk w =>
      cases w with
      | timedOut => simp [send_request, hc, hw, afterInsert]
      | cancelled => simp [send_request, hc, hw, afterInsert]
      | responded m =>
          by_cases ht : truthy m.error <;> simp [send_request, hc, hw, ht, afterInsert]

/-! ### Concrete fixtures used by witnesses and counterexamples -/

def exMsgA : Msg := { type := some "response", id := some "a", data := some (.accounts ["X"]) }
def exMsgB : Msg := { type := some "response", id := some "b", error := some "boom" }
def exStatus : Msg := { type := some "status", ibkr_connected := some true, account := some "U7" }
def exHeartbeat : Msg := { type := some "heartbeat" }

def exConn : RelayConnection :=
  { user_id := "u1", ws_open := true, connected_at := 0, last_heartbeat := 0,
    pending_requests := [("a", .pending), ("b", .pending)] }

def exState : RelayState := ⟨[("u1", exConn)]⟩

def exConnMix : RelayConnection :=
  { user_id := "u1", ws_open := true, connected_at := 0, last_heartbeat := 0,
    pending_requests := [("a", .pending), ("b", .resolved exMsgA)] }

def exStateMix : RelayState := ⟨[("u1", exConnMix)]⟩

def exStateClosed : RelayState := ⟨[("u1", { exConn with ws_open := false })]⟩

def exIB : IBOracle :=
  { connected := true, accounts := ["DU1"],
    positions := fun _ => .ok [], portfolio := fun _ => .ok [],
    price := fun _ => .ok (some 10), expirations := fun _ => .ok [],
    strikes_of := fun _ _ => .ok [],
    option_quote := fun _ _ s _ => .ok { bid := some s } }

def exReqA : AgentRequest := { id := some "a", action := some "get_accounts" }
def exReqB : AgentRequest := { id := some "b", action := some "get_accounts" }
def exReqUnknown : AgentRequest := { id := some "r9", action := some "frobnicate" }

def exDurSlow : AgentRequest → Nat := fun r => if r.id = some "a" then 100 else 1
def exDurFast : AgentRequest → Nat := fun r => if r.id = some "a" then 0 else 1

/-- An oracle whose put quote fails at strike 2, to exercise the
per-strike-and-side skip of the chain loop. -/
def exIBChain : IBOracle :=
  { exIB with option_quote := fun _ _ s r =>
      if s = 2 ∧ r = "P" then .error "no market data" else .ok { bid := some s } }

/-- Params of a get_option_chain call frame carrying the strikes key
with the list [1, 2, 3]. -/
def exChainParams : ReqParams := { strikes := some (some [1, 2, 3]) }

/-- Params of a get_option_chain call frame carrying the strikes key
with JSON null, as the backend proxy sends by default. -/
def exNullParams : ReqParams := { strikes := some none }

/-- The quote function the get_option_chain branch builds from
exIBChain and exChainParams. -/
def exChainQuote : Int → String → Except String OptionQuote :=
  fun s r => exIBChain.option_quote ((exChainParams.symbol.getD "").toUpper)
    (exChainParams.expiry.getD "") s r

/-! ### Claims -/

/-- C1: for any set of pending calls on one live identity, delivering
the response frames in any order resolves each pending correlation
entry with exactly the frame whose id equals that entry, never by
arrival sequence: the resolved value for entry k is the unique frame
addressed to k, and it is the same for any permutation of the delivery
order. -/
theorem c1_response_routing_by_id
    (st : RelayState) (uid k : String) (frames frames2 : List (Nat × Msg)) (m : Msg)
    (hpend : pendingLookup st uid k = some .pending)
    (hroutes : routes m k)
    (hmem : ∃ t0, (t0, m) ∈ frames)
    (huniq : ∀ p ∈ frames, routes (Prod.snd p) k → Prod.snd p = m)
    (hperm : frames.Perm frames2) :
    pendingLookup (deliverTimed st uid frames) uid k = some (.resolved m)
    ∧ pendingLookup (deliverTimed st uid frames2) uid k = some (.resolved m) := by
  constructor
  · exact deliver_resolves uid k m hroutes frames st hpend hmem
      (fun t2 m2 h hr => huniq (t2, m2) h hr)
  · refine deliver_resolves uid k m hroutes frames2 st hpend ?_ ?_
    · obtain ⟨t0, h⟩ := hmem
      exact ⟨t0, hperm.mem_iff.mp h⟩
    · intro t2 m2 h hr
      exact huniq (t2, m2) (hperm.mem_iff.mpr h) hr

/-- C1 witness: two pending calls a and b; the response for b arrives
before the response for a, and also in the opposite order; in both
cases entry a is resolved with exactly the frame addressed to a. -/
theorem c1_witness :
    pendingLookup (deliverTimed exState "u1" [(1, exMsgB), (2, exMsgA)]) "u1" "a"
      = some (.resolved exMsgA)
    ∧ pendingLookup (deliverTimed exState "u1" [(2, exMsgA), (1, exMsgB)]) "u1" "a"
      = some (.resolved exMsgA) :=
  c1_response_routing_by_id exState "u1" "a" [(1, exMsgB), (2, exMsgA)]
    [(2, exMsgA), (1, exMsgB)] exMsgA (by decide) (by decide)
    ⟨2, by decide⟩ (by decide) (by decide)

/-- C2 counterexample: in a state with one live connection for u1
holding the outstanding entry a, connect (register) supersedes the
connection, yet the superseded connection still holds entry a in state
pending — it is not resolved to any error, contradicting the claim that
every outstanding entry of a superseded connection resolves exactly
once to a connection-lost error; the entry is also absent from the new
live table, so nothing can resolve it later. -/
theorem c2_counterexample :
    ((connect exState "u1" 5).2.map (fun c => alookup c.pending_requests "a"))
      = some (some .pending)
    ∧ ((alookup (connect exState "u1" 5).1.connections "u1").map
        (fun c => alookup c.pending_requests "a")) = some none := by
  exact ⟨rfl, rfl⟩

/-- C2 (amended): disconnect pops the connection and cancels each
not-yet-done correlation entry exactly once (pending becomes cancelled,
already-done entries are untouched), resuming the suspended caller with
a cancellation error rather than a connection-lost typed error; connect
closes the superseded websocket but leaves the superseded connection
entries exactly as they were (they are never resolved and are left to
their own timeouts), and installs a fresh empty connection that becomes
the sole live one registered for the identity. -/
theorem c2_teardown_semantics
    (st st2 : RelayState) (uid uid2 rid action : String) (now : Nat)
    (c : RelayConnection) (k : String)
    (hc : alookup st.connections uid = some c)
    (huid2 : uid2 ≠ uid)
    (hlive2 : is_connected st2 uid = true) :
    (disconnect st uid).2
        = some { c with pending_requests :=
            c.pending_requests.map (fun kf => (kf.1, cancelStep kf.2)) }
    ∧ alookup (disconnect st uid).1.connections uid = none
    ∧ alookup (c.pending_requests.map (fun kf => (kf.1, cancelStep kf.2))) k
        = (alookup c.pending_requests k).map cancelStep
    ∧ (send_request st2 uid rid action (.sendOk .cancelled)).1 = .cancelledErr
    ∧ (connect st uid now).2 = some { c with ws_open := false }
    ∧ alookup (connect st uid now).1.connections uid = some (freshConn uid now)
    ∧ is_connected (connect st uid now).1 uid = true
    ∧ alookup (connect st uid now).1.connections uid2 = alookup st.connections uid2 := by
  obtain ⟨c2, hc2, hw2⟩ := is_connected_elim st2 uid hlive2
  refine ⟨?_, ?_, ?_, ?_, ?_, ?_, ?_, ?_⟩
  · simp [disconnect, hc]
  · simp [disconnect, hc, alookup_aremove_self]
  · exact alookup_mapval cancelStep c.pending_requests k
  · rw [send_request_eq st2 uid rid action (.sendOk .cancelled) c2 hc2 hw2]
  · simp [connect, hc]
  · simp [connect, alookup_aset_self]
  · simp [is_connected, connect, alookup_aset_self, freshConn]
  · simp [connect, alookup_aset_other _ _ _ _ huid2]

/-- C2 witness: a state with one pending and one already-resolved entry
for u1; disconnect cancels only the pending one, a cancelled wait
surfaces as a cancellation, and connect supersedes while leaving the
old entries untouched. -/
theorem c2_witness :
    (disconnect exStateMix "u1").2
        = some { exConnMix with pending_requests :=
            exConnMix.pending_requests.map (fun kf => (kf.1, cancelStep kf.2)) }
    ∧ alookup (disconnect exStateMix "u1").1.connections "u1" = none
    ∧ alookup (exConnMix.pending_requests.map (fun kf => (kf.1, cancelStep kf.2))) "b"
        = (alookup exConnMix.pending_requests "b").map cancelStep
    ∧ (send_request exStateMix "u1" "r" "x" (.sendOk .cancelled)).1 = .cancelledErr
    ∧ (connect exStateMix "u1" 5).2 = some { exConnMix with ws_open := false }
    ∧ alookup (connect exStateMix "u1" 5).1.connections "u1" = some (freshConn "u1" 5)
    ∧ is_connected (connect exStateMix "u1" 5).1 "u1" = true
    ∧ alookup (connect exStateMix "u1" 5).1.connections "zz"
        = alookup exStateMix.connections "zz" :=
  c2_teardown_semantics exStateMix exStateMix "u1" "zz" "r" "x" 5 exConnMix "b"
    (by decide) (by decide) (by decide)

/-- C3: on a live connection, a call whose deadline elapses fails with
the Timeout error and its correlation entry is gone from the table; a
response frame for that same id arriving afterwards leaves every
pending table of every identity unchanged — it resolves no caller (and
the code path raises nothing: handle_message is total on this branch). -/
theorem c3_timeout_then_late_response
    (st : RelayState) (uid rid action uid2 k2 : String) (t : Nat) (m : Msg)
    (st2 : RelayState)
    (hlive : is_connected st uid = true)
    (hm : m.type.getD "response" = "response") (hid : m.id = some rid)
    (hst2 : st2 = (send_request st uid rid action (.sendOk .timedOut)).2) :
    (send_request st uid rid action (.sendOk .timedOut)).1 = .timeout action
    ∧ pendingLookup st2 uid rid = none
    ∧ pendingLookup (handle_message st2 uid t m) uid2 k2 = pendingLookup st2 uid2 k2 := by
  obtain ⟨c, hc, hw⟩ := is_connected_elim st uid hlive
  have hred := send_request_eq st uid rid action (.sendOk .timedOut) c hc hw
  have hpop : alookup (afterInsert st uid rid c).connections uid
      = some { c with pending_requests := aset c.pending_requests rid FutureState.pending } := by
    simp [afterInsert, alookup_aset_self]
  refine ⟨by rw [hred], ?_, ?_⟩
  · rw [hst2, hred]
    exact popPending_clears _ uid rid _ hpop
  · have habs : pendingLookup st2 uid rid = none := by
      rw [hst2, hred]
      exact popPending_clears _ uid rid _ hpop
    by_cases huid : uid2 = uid
    · subst huid
      cases hc3 : alookup st2.connections uid2 with
      | none =>
          unfold pendingLookup
          rw [handle_message, hc3, hc3]
      | some c3 =>
          have habs2 : alookup c3.pending_requests rid = none := by
            unfold pendingLookup at habs
            rw [hc3] at habs
            simpa using habs
          unfold pendingLookup
          rw [handle_message_lookup_self st2 uid2 t m c3 hc3, hc3]
          show alookup (hmConn c3 t m).pending_requests k2 = alookup c3.pending_requests k2
          rw [hmConn_pending_absent c3 t m rid hm hid habs2]
    · unfold pendingLookup
      rw [handle_message_lookup_other st2 uid uid2 t m huid]

/-- C3 witness: on a live connection with two other calls outstanding,
a timed-out call r1 fails with Timeout, entry r1 is gone, and a late
response for r1 changes no pending table. -/
theorem c3_witness :
    (send_request exState "u1" "r1" "get_price" (.sendOk .timedOut)).1
      = .timeout "get_price"
    ∧ pendingLookup (send_request exState "u1" "r1" "get_price" (.sendOk .timedOut)).2
        "u1" "r1" = none
    ∧ pendingLookup
        (handle_message (send_request exState "u1" "r1" "get_price" (.sendOk .timedOut)).2
          "u1" 9 { type := some "response", id := some "r1", data := some .emptyDict })
        "u1" "a"
      = pendingLookup (send_request exState "u1" "r1" "get_price" (.sendOk .timedOut)).2
          "u1" "a" :=
  c3_timeout_then_late_response exState "u1" "r1" "get_price" "u1" "a" 9
    { type := some "response", id := some "r1", data := some .emptyDict }
    (send_request exState "u1" "r1" "get_price" (.sendOk .timedOut)).2
    (by decide) (by decide) (by decide) rfl

/-- C4: against an identity with no live connection, send_request
returns the NotConnected failure with the state unchanged, for every
generated id and every environment outcome — so it neither suspends
(the outcome is never consulted), nor records a correlation entry, nor
mutates any table. -/
theorem c4_not_connected_fails_immediately
    (st : RelayState) (uid rid action : String) (out : SendOutcome)
    (h : is_connected st uid = false) :
    send_request st uid rid action out = (.notConnected, st) := by
  unfold is_connected at h
  cases hc : alookup st.connections uid with
  | none => simp [send_request, hc]
  | some c =>
      rw [hc] at h
      simp only [] at h
      simp [send_request, hc, h]

/-- C4 witness: a registered connection whose websocket is no longer in
the CONNECTED state also counts as not live; the call fails immediately
and the state is untouched. -/
theorem c4_witness :
    send_request exStateClosed "u1" "r1" "get_positions" (.sendOk .timedOut)
      = (.notConnected, exStateClosed) :=
  c4_not_connected_fails_immediately exStateClosed "u1" "r1" "get_positions"
    (.sendOk .timedOut) (by decide)

/-- C5 counterexample: two call frames a and b on the same tunnel, with
the handling duration of b fixed at 1 throughout.  When a is slow
(duration 100) the result frame of b is sent at instant 101; when a is
fast (duration 0) it is sent at instant 1.  The result time of b thus
depends on the duration of a: a single slow capability call does delay
the dispatch and result frames of the other in-flight call, refuting
the claimed independence. -/
theorem c5_counterexample :
    (message_loop_timed exIB exDurSlow 0 [some exReqA, some exReqB]).map Prod.snd
      = [100, 101]
    ∧ (message_loop_timed exIB exDurFast 0 [some exReqA, some exReqB]).map Prod.snd
      = [0, 1]
    ∧ (message_loop_timed exIB exDurSlow 0 [some exReqA, some exReqB]).map Prod.snd
      ≠ (message_loop_timed exIB exDurFast 0 [some exReqA, some exReqB]).map Prod.snd := by
  refine ⟨rfl, rfl, by decide⟩

/-- C5 (amended): in the Active state the message loop handles call
frames strictly sequentially, not independently: the k-th parsed frame
is answered with the handle_request response computed for it, at the
start instant plus the sum of the handling durations of every parsed
frame up to and including it — so a slow or hung capability call delays
the dispatch and the result frames of all subsequent calls on the
tunnel. -/
theorem c5_sequential_dispatch
    (ib : IBOracle) (dur : AgentRequest → Nat) (items : List (Option AgentRequest))
    (t0 k : Nat) (hk : k < (items.filterMap id).length) :
    (message_loop_timed ib dur t0 items).get? k
      = some (handle_request ib ((items.filterMap id).get ⟨k, hk⟩),
          t0 + ((((items.filterMap id).take (k + 1)).map dur).sum)) :=
  message_loop_timed_sequential ib dur items t0 k hk

/-- C5 witness: with the slow duration assignment, the second parsed
frame is answered at instant 101 = 0 + (100 + 1). -/
theorem c5_witness :
    (message_loop_timed exIB exDurSlow 0 [some exReqA, some exReqB]).get? 1
      = some (handle_request exIB exReqB, 101) :=
  c5_sequential_dispatch exIB exDurSlow [some exReqA, some exReqB] 0 1 (by decide)

/-- C6: a call frame whose action is not a recognised capability action
makes handle_request return a response frame carrying the original
correlation id and the error description, no transport fault; the
message loop answers it in place and keeps processing every frame
before and after it. -/
theorem c6_unknown_action_error_response
    (ib : IBOracle) (req : AgentRequest) (rid action : String)
    (pre post : List (Option AgentRequest))
    (hid : req.id = some rid) (hact : req.action = some action)
    (hconn : ib.connected = true) (hunk : action ∉ recognizedActions) :
    handle_request ib req = error_response rid ("Unknown action: " ++ action)
    ∧ message_loop ib (pre ++ some req :: post)
        = message_loop ib pre
            ++ error_response rid ("Unknown action: " ++ action) :: message_loop ib post := by
  have hexec : execute_action ib action req.params
      = .error ("Unknown action: " ++ action) := by
    simp only [recognizedActions, List.mem_cons, List.mem_singleton] at hunk
    push_neg at hunk
    obtain ⟨h1, h2, h3, h4, h5, h6, h7, h8⟩ := hunk
    simp [execute_action, h1, h2, h3, h4, h5, h6, h7, h8]
  have hh : handle_request ib req = error_response rid ("Unknown action: " ++ action) := by
    simp [handle_request, hconn, hid, hact, hexec]
  refine ⟨hh, ?_⟩
  rw [message_loop_append]
  simp [message_loop, hh]

/-- C6 witness: the frobnicate action is unknown; it yields an error
response carrying id r9 and the loop still answers the surrounding
frames (an unparseable frame before, a normal call after). -/
theorem c6_witness :
    handle_request exIB exReqUnknown = error_response "r9" ("Unknown action: " ++ "frobnicate")
    ∧ message_loop exIB ([none] ++ some exReqUnknown :: [some exReqA])
        = message_loop exIB [none]
            ++ error_response "r9" ("Unknown action: " ++ "frobnicate")
              :: message_loop exIB [some exReqA] :=
  c6_unknown_action_error_response exIB exReqUnknown "r9" "frobnicate" [none] [some exReqA]
    (by decide) (by decide) (by decide) (by decide)

/-- C7 counterexample: for an identity with no registered connection,
get_connection_status returns the reduced dict without the
connected_at and last_heartbeat keys (modelled as none), so the claim
that the snapshot carries all five fields for every identity fails. -/
theorem c7_counterexample :
    (get_connection_status (⟨[]⟩ : RelayState) "u1").connected_at = none
    ∧ (get_connection_status (⟨[]⟩ : RelayState) "u1").last_heartbeat = none := by
  exact ⟨rfl, rfl⟩

/-- C7 (amended): for every identity with a registered connection,
get_connection_status is a pure read of the state (no suspension
point) and, after any sequence of inbound frames — responses to
in-flight calls included — returns the full five-field snapshot whose
capability flag and context label are those carried by the most recent
status frame (via the statusStep fold) and whose last_heartbeat is the
instant of the most recent frame of any type; for an identity with no
registered connection it returns the reduced three-field dict instead. -/
theorem c7_status_snapshot
    (st : RelayState) (uid : String) (frames : List (Nat × Msg)) (c : RelayConnection)
    (hc : alookup st.connections uid = some c) :
    get_connection_status (deliverTimed st uid frames) uid
      = { connected := c.ws_open,
          ibkr_connected := (frames.foldl statusStep (svOf c)).ibkr,
          account := (frames.foldl statusStep (svOf c)).account,
          connected_at := some c.connected_at,
          last_heartbeat := some ((frames.foldl statusStep (svOf c)).hb) } := by
  obtain ⟨c2, hc2, hw, hca, hsv⟩ := deliver_status uid frames st c hc
  have h1 : c2.ibkr_connected = (frames.foldl statusStep (svOf c)).ibkr := by
    rw [← hsv]; rfl
  have h2 : c2.ibkr_account = (frames.foldl statusStep (svOf c)).account := by
    rw [← hsv]; rfl
  have h3 : c2.last_heartbeat = (frames.foldl statusStep (svOf c)).hb := by
    rw [← hsv]; rfl
  simp [get_connection_status, hc2, hw, hca, h1, h2, h3]

/-- C7 witness: after a status frame at instant 5, a heartbeat at 9 and
a response frame at 11 routed to a pending call, the snapshot carries
the status-frame fields and last_heartbeat 11 — the instant of the most
recent frame of any type. -/
theorem c7_witness :
    get_connection_status
        (deliverTimed exState "u1" [(5, exStatus), (9, exHeartbeat), (11, exMsgA)]) "u1"
      = { connected := true, ibkr_connected := true, account := some "U7",
          connected_at := some 0, last_heartbeat := some 11 } :=
  c7_status_snapshot exState "u1" [(5, exStatus), (9, exHeartbeat), (11, exMsgA)]
    exConn (by decide)

/-- C8: on a live connection, whatever happens during the call — a
successful response, a remote-reported error, a timeout, a
cancellation, or a failure while sending the frame — the correlation
entry created by send_request is absent from the pending table of the
connection once send_request finishes. -/
theorem c8_entry_removed_on_every_exit
    (st : RelayState) (uid rid action : String) (out : SendOutcome)
    (hlive : is_connected st uid = true) :
    pendingLookup (send_request st uid rid action out).2 uid rid = none := by
  obtain ⟨c, hc, hw⟩ := is_connected_elim st uid hlive
  rw [send_request_eq st uid rid action out c hc hw]
  have hpop : alookup (afterInsert st uid rid c).connections uid
      = some { c with pending_requests := aset c.pending_requests rid FutureState.pending } := by
    simp [afterInsert, alookup_aset_self]
  exact popPending_clears _ uid rid _ hpop

/-- C8 witness: a failure while sending the call frame still leaves the
table without the entry. -/
theorem c8_witness :
    pendingLookup (send_request exState "u1" "r1" "get_price" .sendFailed).2 "u1" "r1"
      = none :=
  c8_entry_removed_on_every_exit exState "u1" "r1" "get_price" .sendFailed (by decide)

/-- C9: on a live connection, a call resolved by a response frame
raises the remote-error failure exactly when the error field of that
frame is truthy — the error wins even when a data field is present,
since the data field is unconstrained here — and otherwise returns the
data field, or the empty dict when the data key is absent. -/
theorem c9_remote_error_precedence
    (st : RelayState) (uid rid action e : String) (m : Msg)
    (hlive : is_connected st uid = true) :
    ((send_request st uid rid action (.sendOk (.responded m))).1 = .remoteError e
        ↔ truthy m.error = true ∧ m.error = some e)
    ∧ (truthy m.error = false →
        (send_request st uid rid action (.sendOk (.responded m))).1
          = .success (m.data.getD .emptyDict)) := by
  obtain ⟨c, hc, hw⟩ := is_connected_elim st uid hlive
  rw [send_request_eq st uid rid action (.sendOk (.responded m)) c hc hw]
  cases hm : m.error with
  | none => simp [truthy, hm]
  | some s =>
      by_cases hs : s = ""
      · subst hs
        simp [truthy, hm]
      · simp [truthy, hm, hs]

/-- C9 witness: a response carrying both a truthy error and a data
payload raises the remote error E, showing the precedence of the error
field. -/
theorem c9_witness :
    ((send_request exState "u1" "r1" "x"
        (.sendOk (.responded { error := some "E", data := some (.accounts ["q"]) }))).1
          = .remoteError "E"
      ↔ truthy (some "E") = true ∧ (some "E" : Option String) = some "E")
    ∧ (truthy (some "E") = false →
        (send_request exState "u1" "r1" "x"
          (.sendOk (.responded { error := some "E", data := some (.accounts ["q"]) }))).1
            = .success ((some (ActionData.accounts ["q"])).getD .emptyDict)) :=
  c9_remote_error_precedence exState "u1" "r1" "x" "E"
    { error := some "E", data := some (.accounts ["q"]) } (by decide)

/-- C10 counterexample: a get_option_chain call frame whose strikes key
is present with JSON null — exactly what the backend proxy
IBKRProxyService.get_option_chain sends by default — makes the
strikes-slice raise a TypeError, so the action fails and the frame the
agent sends back is an error response, not a success payload with
calls and puts lists, refuting the claim that the result frame is
always a success payload. -/
theorem c10_counterexample :
    execute_action exIB "get_option_chain" exNullParams = .error strikesNullMsg
    ∧ handle_request exIB
        { id := some "r1", action := some "get_option_chain", params := exNullParams }
      = error_response "r1" strikesNullMsg := by
  exact ⟨rfl, rfl⟩

/-- C10 (amended): when the strikes value of a get_option_chain call
frame is a list (or the key is absent, defaulting to the empty list),
the action always succeeds with a chain payload holding a calls list
and a puts list; only the first 20 requested strikes are processed
(later ones are silently omitted), and a per-strike-and-side quote
failure is skipped rather than failing the action, the lists holding
exactly the successfully quoted entries of the first 20 strikes in
order.  When the strikes key is present with JSON null, however, the
slice raises a TypeError and the action returns an error response
instead of a success payload. -/
theorem c10_option_chain_semantics
    (ib : IBOracle) (p pnull : ReqParams) (xs : List Int)
    (hxs : p.strikes.getD (some []) = some xs)
    (hnull : pnull.strikes = some none) :
    execute_action ib "get_option_chain" p
      = .ok (.chain (build_option_chain
          (fun s r => ib.option_quote ((p.symbol.getD "").toUpper) (p.expiry.getD "") s r)
          xs))
    ∧ (build_option_chain
          (fun s r => ib.option_quote ((p.symbol.getD "").toUpper) (p.expiry.getD "") s r)
          xs).calls
        = (xs.take 20).filterMap
            (fun s =>
              match ib.option_quote ((p.symbol.getD "").toUpper) (p.expiry.getD "") s "C" with
              | .ok q => some (toChainEntry s q)
              | .error _ => none)
    ∧ (build_option_chain
          (fun s r => ib.option_quote ((p.symbol.getD "").toUpper) (p.expiry.getD "") s r)
          xs).puts
        = (xs.take 20).filterMap
            (fun s =>
              match ib.option_quote ((p.symbol.getD "").toUpper) (p.expiry.getD "") s "P" with
              | .ok q => some (toChainEntry s q)
              | .error _ => none)
    ∧ execute_action ib "get_option_chain" pnull = .error strikesNullMsg := by
  have h1 : execute_action ib "get_option_chain" p
      = (match p.strikes.getD (some []) with
         | none => Except.error strikesNullMsg
         | some ys =>
             Except.ok (ActionData.chain (build_option_chain
               (fun s r => ib.option_quote ((p.symbol.getD "").toUpper)
                 (p.expiry.getD "") s r)
               ys))) := rfl
  have h4 : execute_action ib "get_option_chain" pnull
      = (match pnull.strikes.getD (some []) with
         | none => Except.error strikesNullMsg
         | some ys =>
             Except.ok (ActionData.chain (build_option_chain
               (fun s r => ib.option_quote ((pnull.symbol.getD "").toUpper)
                 (pnull.expiry.getD "") s r)
               ys))) := rfl
  refine ⟨?_, ?_, ?_, ?_⟩
  · rw [h1, hxs]
  · have h := build_chain_parts
      (fun s r => ib.option_quote ((p.symbol.getD "").toUpper) (p.expiry.getD "") s r)
      (xs.take 20) {}
    simpa [build_option_chain] using h.1
  · have h := build_chain_parts
      (fun s r => ib.option_quote ((p.symbol.getD "").toUpper) (p.expiry.getD "") s r)
      (xs.take 20) {}
    simpa [build_option_chain] using h.2
  · rw [h4, hnull]
    rfl

/-- C10 witness: for the strikes list [1, 2, 3] under an oracle whose
put quote fails at strike 2, the action succeeds with all three call
entries and only the put entries for strikes 1 and 3 (the failure is
skipped); for the strikes-null params the action yields the TypeError
error. -/
theorem c10_witness :
    execute_action exIBChain "get_option_chain" exChainParams
      = .ok (.chain (build_option_chain exChainQuote [1, 2, 3]))
    ∧ (build_option_chain exChainQuote [1, 2, 3]).calls
        = [toChainEntry 1 { bid := some 1 }, toChainEntry 2 { bid := some 2 },
           toChainEntry 3 { bid := some 3 }]
    ∧ (build_option_chain exChainQuote [1, 2, 3]).puts
        = [toChainEntry 1 { bid := some 1 }, toChainEntry 3 { bid := some 3 }]
    ∧ execute_action exIBChain "get_option_chain" exNullParams = .error strikesNullMsg :=
  c10_option_chain_semantics exIBChain exChainParams exNullParams [1, 2, 3] rfl rfl

end RelaySpec
